import Mathlib

/-
Shallow embedding of plugins/processors/snmp_lookup/store.go (telegraf).

Modelling choices:
 - time.Time and time.Duration are modelled as Int (ticks); time.Since(t)
   at the current instant now is now - t; t.After(u) is t > u; t.Before(u)
   is t < u.
 - Go maps are modelled as association lists (at most one binding per key,
   maintained by mapInsert replacing in place).  The order of an
   association list stands for one admissible iteration order of the Go
   map (Go map iteration order is unspecified, so every list order is a
   possible execution).
 - The pointer type *tagMap is modelled as Option tagMap (none = nil).
 - The pond worker pool is modelled by a poolStopped flag together with a
   pendingJobs queue of submitted resolution jobs; pool.Submit appends,
   pool.Stopped() reads the flag, pool.StopAndWait() sets the flag and
   then runs every submitted job to completion (drainJobs).
 - sync.Map inflight is modelled as a list of keys with listMem /
   listErase (LoadOrStore is atomic in Go, so one enqueue step is atomic
   here).
 - The callbacks s.update and s.notify are collaborator-supplied; update
   is passed explicitly to the job body, and notify invocations are
   recorded in an event trace together with job submissions, so that
   ordering claims can be stated about the trace.
 - lookup returns Option: none models the Go nil-pointer dereference that
   entry.rows would perform if a nil *tagMap had been cached.
-/

namespace SnmpLookup

/-- Result of one resolution: a creation timestamp plus rows mapping a
sub-index to its resolved attribute set (tagMap from the Go source). -/
structure tagMap where
  created : Int
  rows : List (String × List (String × String))
deriving DecidableEq

/-- Observable events emitted by store operations: job submission to the
pool, and the steps of a resolution job's completion path. -/
inductive Event where
  | submit (agent : String)
  | cacheAdd (agent : String) (entry : Option tagMap)
  | backlogRemove (agent : String)
  | notify (agent : String) (entry : Option tagMap)
  | inflightDelete (agent : String)
deriving DecidableEq

/-- Tests whether an event is a notifier invocation. -/
def Event.isNotify : Event → Bool
  | .notify _ _ => true
  | _ => false

/-- Tests whether an event is a job submission. -/
def Event.isSubmit : Event → Bool
  | .submit _ => true
  | _ => false

/-- Association-list lookup, modelling a Go map read. -/
def mapLookup {β : Type} : List (String × β) → String → Option β
  | [], _ => none
  | (k', v) :: rest, k => if k' = k then some v else mapLookup rest k

/-- Association-list insert-or-replace, modelling a Go map write. -/
def mapInsert {β : Type} : List (String × β) → String → β → List (String × β)
  | [], k, v => [(k, v)]
  | (k', v') :: rest, k, v =>
    if k' = k then (k, v) :: rest else (k', v') :: mapInsert rest k v

/-- Association-list delete, modelling the Go delete builtin. -/
def mapErase {β : Type} : List (String × β) → String → List (String × β)
  | [], _ => []
  | (k', v) :: rest, k =>
    if k' = k then mapErase rest k else (k', v) :: mapErase rest k

/-- Set membership on a list of keys (the inflight sync.Map). -/
def listMem : List String → String → Bool
  | [], _ => false
  | a :: rest, x => if a = x then true else listMem rest x

/-- Set removal on a list of keys (sync.Map.Delete). -/
def listErase : List String → String → List String
  | [], _ => []
  | a :: rest, x => if a = x then listErase rest x else a :: listErase rest x

/-- Minimum of the deadlines of a backlog, none when the backlog is
empty.  Used to state timer-minimality. -/
def minD : List (String × Int) → Option Int
  | [] => none
  | (_, t) :: rest =>
    match minD rest with
    | none => some t
    | some m => some (min t m)

/-- The store state (struct store in the Go source).  cacheSize, cacheTTL
and workers are the construction parameters handed to the LRU cache and
the worker pool (external collaborators whose eviction and elasticity
policies are not modelled here). -/
structure Store where
  cacheSize : Int
  cacheTTL : Int
  workers : Int
  cache : List (String × Option tagMap)
  poolStopped : Bool
  pendingJobs : List String
  minUpdateInterval : Int
  inflight : List String
  deferredUpdates : List (String × Int)
  deferredUpdatesTimer : Option (String × Int)
  stopped : Bool
deriving DecidableEq

/-- newStore from the Go source: builds the store, handing size, ttl and
workers to the cache and pool; it performs no validation and cannot
fail. -/
def newStore (size ttl workers minUpdateInterval : Int) : Store :=
  { cacheSize := size
    cacheTTL := ttl
    workers := workers
    cache := []
    poolStopped := false
    pendingJobs := []
    minUpdateInterval := minUpdateInterval
    inflight := []
    deferredUpdates := []
    deferredUpdatesTimer := none
    stopped := false }

/-- One step of the scan in refreshTimer: the Go loop body
if agent == "" or t.Before(earliest) then take the current pair. -/
def scanStep (acc kt : String × Int) : String × Int :=
  if acc.1 = "" || kt.2 < acc.2 then kt else acc

/-- The scan of refreshTimer over the backlog, started from the Go zero
values (empty agent string, zero time). -/
def scanEarliest (l : List (String × Int)) : String × Int :=
  l.foldl scanStep ("", 0)

/-- refreshTimer from the Go source: stop any pending timer; if the
backlog is nonempty and the store is not stopped, scan for the earliest
deadline and arm a one-shot timer for that agent at that instant. -/
def refreshTimer (s : Store) : Store :=
  let s0 := { s with deferredUpdatesTimer := none }
  if s0.deferredUpdates.isEmpty || s0.stopped then s0
  else { s0 with deferredUpdatesTimer := some (scanEarliest s0.deferredUpdates) }

/-- addBacklog from the Go source: a no-op on a stopped store; otherwise
insert the deadline if the key is absent or its existing deadline is
later, and re-arm the timer. -/
def addBacklog (s : Store) (agent : String) (earliest : Int) : Store :=
  if s.stopped then s
  else
    match mapLookup s.deferredUpdates agent with
    | none =>
      refreshTimer { s with deferredUpdates := mapInsert s.deferredUpdates agent earliest }
    | some t =>
      if earliest < t then
        refreshTimer { s with deferredUpdates := mapInsert s.deferredUpdates agent earliest }
      else s

/-- removeBacklog from the Go source: delete the key (even when stopped,
to avoid deadlocks) and re-arm the timer unless the store is stopped. -/
def removeBacklog (s : Store) (agent : String) : Store :=
  let s0 := { s with deferredUpdates := mapErase s.deferredUpdates agent }
  if s0.stopped then s0 else refreshTimer s0

/-- enqueue from the Go source.  inflight.LoadOrStore(agent, true) is one
atomic step: if the key was already present nothing is stored and enqueue
returns; otherwise the mark is stored, and then, if the pool is stopped,
enqueue returns (leaving the mark in place); otherwise the resolution job
is submitted to the pool. -/
def enqueue (s : Store) (agent : String) : Store × List Event :=
  if listMem s.inflight agent then (s, [])
  else if s.poolStopped then ({ s with inflight := agent :: s.inflight }, [])
  else ({ s with inflight := agent :: s.inflight, pendingJobs := s.pendingJobs ++ [agent] },
        [Event.submit agent])

/-- The body of a submitted resolution job from the Go source: call the
collaborator update function, install its result into the cache, remove
the backlog entry, invoke the notifier with the result, and delete the
in-flight mark; the trace records those steps in order. -/
def runJob (update : String → Option tagMap) (s : Store) (agent : String) :
    Store × List Event :=
  let entry := update agent
  let s1 := { s with cache := mapInsert s.cache agent entry }
  let s2 := removeBacklog s1 agent
  let s3 := { s2 with inflight := listErase s2.inflight agent }
  (s3, [Event.cacheAdd agent entry, Event.backlogRemove agent,
        Event.notify agent entry, Event.inflightDelete agent])

/-- lookup from the Go source, with the current instant passed explicitly
(time.Since(entry.created) = now - entry.created).  Returns none exactly
when the Go code would dereference a nil cached *tagMap. -/
def lookup (now : Int) (s : Store) (agent index : String) :
    Option (Store × List Event) :=
  match mapLookup s.cache agent with
  | none => some (enqueue s agent)
  | some none => none
  | some (some entry) =>
    match mapLookup entry.rows index with
    | some _ => some (s, [Event.notify agent (some entry)])
    | none =>
      if 0 < s.minUpdateInterval then
        if s.minUpdateInterval < now - entry.created then
          some (enqueue s agent)
        else
          some (addBacklog s agent (entry.created + s.minUpdateInterval),
                [Event.notify agent (some entry)])
      else
        some (s, [Event.notify agent (some entry)])

/-- Runs every listed submitted job to completion, accumulating the
event traces (the waiting phase of pond.StopAndWait). -/
def drainJobs (update : String → Option tagMap) (s : Store) :
    List String → Store × List Event
  | [] => (s, [])
  | a :: rest =>
    let r1 := runJob update s a
    let r2 := drainJobs update r1.1 rest
    (r2.1, r1.2 ++ r2.2)

/-- destroy from the Go source: under the lock set stopped, clear the
backlog map and stop the timer; then release the lock and call
pool.StopAndWait, which stops the pool and lets every already submitted
job run to completion. -/
def destroy (update : String → Option tagMap) (s : Store) : Store × List Event :=
  let s1 :=
    { s with
      stopped := true
      deferredUpdates := []
      deferredUpdatesTimer := none
      poolStopped := true }
  drainJobs update { s1 with pendingJobs := [] } s1.pendingJobs

/-- purge from the Go source: clears the cache only. -/
def purge (s : Store) : Store := { s with cache := [] }

/-- N successive lookup calls for the same key, modelling N concurrent
callers whose enqueue steps serialize at the atomic LoadOrStore. -/
def iterateLookups (now : Int) (s : Store) (agent index : String) :
    Nat → Store × List Event
  | 0 => (s, [])
  | Nat.succ n =>
    match lookup now s agent index with
    | none => (s, [])
    | some r =>
      let rest := iterateLookups now r.1 agent index n
      (rest.1, r.2 ++ rest.2)

/-- Number of submission events for a given key in a trace. -/
def countSubmit (evs : List Event) (agent : String) : Nat :=
  (evs.filter (fun e => e = Event.submit agent)).length

/-- Modelled from the spec: the configuration-validity predicate implied
by the error-handling section, which calls a non-positive cache size, a
negative TTL, a non-positive worker count or a negative minimum-update
interval invalid.  The validation code itself is not part of newStore. -/
def specValidConfig (size ttl workers minUpdateInterval : Int) : Bool :=
  (0 < size) && (0 ≤ ttl) && (0 < workers) && (0 ≤ minUpdateInterval)

/-! Concrete states used by the counterexamples and witnesses below. -/

/-- A cached entry created at time 0 that resolves only index eth0. -/
def exEntry : tagMap := { created := 0, rows := [("eth0", [])] }

/-- A store with minimum update interval 10 whose cache holds exEntry for
key sw1. -/
def c1s : Store := { newStore 100 3600 4 10 with cache := [("sw1", some exEntry)] }

/-- The state left behind by destroying a freshly constructed store: the
pool is stopped and the in-flight set is empty. -/
def c2s : Store := (destroy (fun _ => none) (newStore 100 3600 4 0)).1

/-- A store reached by two addBacklog calls, the first for the empty-string
key with deadline 10 and the second for key a with deadline 20. -/
def c5s : Store := addBacklog (addBacklog (newStore 100 3600 4 30) "" 10) "a" 20

/-- A running store with one backlog entry for key b at deadline 40 and
the timer armed accordingly. -/
def c5w : Store :=
  { newStore 5 60 2 30 with
    deferredUpdates := [("b", 40)]
    deferredUpdatesTimer := some ("b", 40) }

/-- A store with minimum update interval 30 whose cache holds exEntry for
key sw1. -/
def c6s : Store := { newStore 100 3600 4 30 with cache := [("sw1", some exEntry)] }

/-- A store with minimum update interval 0 whose cache holds exEntry for
key sw1. -/
def c7s : Store := { newStore 100 3600 4 0 with cache := [("sw1", some exEntry)] }

/-! Helper lemmas about the association-list and set operations. -/

theorem mapLookup_mapInsert_self {β : Type} (l : List (String × β)) (k : String) (v : β) :
    mapLookup (mapInsert l k v) k = some v := by
  induction l with
  | nil => simp [mapInsert, mapLookup]
  | cons hd tl ih =>
    obtain ⟨k', v'⟩ := hd
    by_cases h : k' = k
    · simp [mapInsert, mapLookup, h]
    · simp [mapInsert, mapLookup, h, ih]

theorem mapLookup_mapErase_self {β : Type} (l : List (String × β)) (k : String) :
    mapLookup (mapErase l k) k = none := by
  induction l with
  | nil => simp [mapErase, mapLookup]
  | cons hd tl ih =>
    obtain ⟨k', v'⟩ := hd
    by_cases h : k' = k
    · simp [mapErase, h, ih]
    · simp [mapErase, mapLookup, h, ih]

theorem mem_mapInsert {β : Type} (l : List (String × β)) (k : String) (v : β)
    (kt : String × β) (h : kt ∈ mapInsert l k v) : kt.1 = k ∨ kt ∈ l := by
  induction l with
  | nil =>
    simp [mapInsert] at h
    left; rw [h]
  | cons hd tl ih =>
    obtain ⟨k', v'⟩ := hd
    by_cases hk : k' = k
    · simp [mapInsert, hk] at h
      rcases h with h | h
      · left; rw [h]
      · right; exact List.mem_cons_of_mem _ h
    · simp [mapInsert, hk] at h
      rcases h with h | h
      · right; rw [h]; exact List.mem_cons_self _ _
      · rcases ih h with h' | h'
        · left; exact h'
        · right; exact List.mem_cons_of_mem _ h'

theorem mem_mapErase {β : Type} (l : List (String × β)) (k : String)
    (kt : String × β) (h : kt ∈ mapErase l k) : kt ∈ l := by
  induction l with
  | nil => simp [mapErase] at h
  | cons hd tl ih =>
    obtain ⟨k', v'⟩ := hd
    by_cases hk : k' = k
    · simp [mapErase, hk] at h
      exact List.mem_cons_of_mem _ (ih h)
    · simp [mapErase, hk] at h
      rcases h with h | h
      · rw [h]; exact List.mem_cons_self _ _
      · exact List.mem_cons_of_mem _ (ih h)

theorem mapInsert_ne_nil {β : Type} (l : List (String × β)) (k : String) (v : β) :
    mapInsert l k v ≠ [] := by
  cases l with
  | nil => simp [mapInsert]
  | cons hd tl =>
    obtain ⟨k', v'⟩ := hd
    by_cases h : k' = k <;> simp [mapInsert, h]

theorem listMem_listErase_self (l : List String) (x : String) :
    listMem (listErase l x) x = false := by
  induction l with
  | nil => simp [listErase, listMem]
  | cons a rest ih =>
    by_cases h : a = x
    · simp [listErase, h, ih]
    · simp [listErase, listMem, h, ih]

theorem listMem_cons_self (rest : List String) (x : String) :
    listMem (x :: rest) x = true := by
  simp [listMem]

/-! Field-preservation facts for the timer and backlog operations. -/

theorem refreshTimer_deferredUpdates (s : Store) :
    (refreshTimer s).deferredUpdates = s.deferredUpdates := by
  simp only [refreshTimer]
  split <;> rfl

theorem refreshTimer_cache (s : Store) : (refreshTimer s).cache = s.cache := by
  simp only [refreshTimer]
  split <;> rfl

theorem refreshTimer_stopped (s : Store) : (refreshTimer s).stopped = s.stopped := by
  simp only [refreshTimer]
  split <;> rfl

theorem refreshTimer_poolStopped (s : Store) :
    (refreshTimer s).poolStopped = s.poolStopped := by
  simp only [refreshTimer]
  split <;> rfl

theorem refreshTimer_inflight (s : Store) : (refreshTimer s).inflight = s.inflight := by
  simp only [refreshTimer]
  split <;> rfl

theorem refreshTimer_pendingJobs (s : Store) :
    (refreshTimer s).pendingJobs = s.pendingJobs := by
  simp only [refreshTimer]
  split <;> rfl

theorem refreshTimer_minUpdateInterval (s : Store) :
    (refreshTimer s).minUpdateInterval = s.minUpdateInterval := by
  simp only [refreshTimer]
  split <;> rfl

theorem addBacklog_cache (s : Store) (a : String) (t : Int) :
    (addBacklog s a t).cache = s.cache := by
  simp only [addBacklog]
  split
  · rfl
  · split
    · rw [refreshTimer_cache]
    · split
      · rw [refreshTimer_cache]
      · rfl

theorem addBacklog_stopped (s : Store) (a : String) (t : Int) :
    (addBacklog s a t).stopped = s.stopped := by
  simp only [addBacklog]
  split
  · rfl
  · split
    · rw [refreshTimer_stopped]
    · split
      · rw [refreshTimer_stopped]
      · rfl

theorem addBacklog_minUpdateInterval (s : Store) (a : String) (t : Int) :
    (addBacklog s a t).minUpdateInterval = s.minUpdateInterval := by
  simp only [addBacklog]
  split
  · rfl
  · split
    · rw [refreshTimer_minUpdateInterval]
    · split
      · rw [refreshTimer_minUpdateInterval]
      · rfl

theorem removeBacklog_cache (s : Store) (a : String) :
    (removeBacklog s a).cache = s.cache := by
  simp only [removeBacklog]
  split
  · rfl
  · rw [refreshTimer_cache]

theorem removeBacklog_stopped (s : Store) (a : String) :
    (removeBacklog s a).stopped = s.stopped := by
  simp only [removeBacklog]
  split
  · rfl
  · rw [refreshTimer_stopped]

theorem removeBacklog_poolStopped (s : Store) (a : String) :
    (removeBacklog s a).poolStopped = s.poolStopped := by
  simp only [removeBacklog]
  split
  · rfl
  · rw [refreshTimer_poolStopped]

theorem removeBacklog_inflight (s : Store) (a : String) :
    (removeBacklog s a).inflight = s.inflight := by
  simp only [removeBacklog]
  split
  · rfl
  · rw [refreshTimer_inflight]

theorem removeBacklog_pendingJobs (s : Store) (a : String) :
    (removeBacklog s a).pendingJobs = s.pendingJobs := by
  simp only [removeBacklog]
  split
  · rfl
  · rw [refreshTimer_pendingJobs]

theorem removeBacklog_deferredUpdates (s : Store) (a : String) :
    (removeBacklog s a).deferredUpdates = mapErase s.deferredUpdates a := by
  simp only [removeBacklog]
  split
  · rfl
  · rw [refreshTimer_deferredUpdates]

theorem removeBacklog_lookup_self (s : Store) (a : String) :
    mapLookup (removeBacklog s a).deferredUpdates a = none := by
  rw [removeBacklog_deferredUpdates, mapLookup_mapErase_self]

/-! The scan of refreshTimer computes the minimum backlog deadline as long
as no backlog key is the empty string (the scan uses the empty string as
its sentinel for no candidate yet). -/

theorem foldl_scanStep (l : List (String × Int)) :
    (∀ kt ∈ l, kt.1 ≠ "") → ∀ acc : String × Int, acc.1 ≠ "" →
      (l.foldl scanStep acc).1 ≠ "" ∧
        (l.foldl scanStep acc).2 =
          (match minD l with
           | none => acc.2
           | some m => min acc.2 m) := by
  induction l with
  | nil =>
    intro _ acc hacc
    exact ⟨hacc, rfl⟩
  | cons hd tl ih =>
    obtain ⟨k, t⟩ := hd
    intro hl acc hacc
    have hk : k ≠ "" := hl (k, t) (List.mem_cons_self _ _)
    have htl : ∀ kt ∈ tl, kt.1 ≠ "" := fun kt hkt => hl kt (List.mem_cons_of_mem _ hkt)
    rw [List.foldl_cons]
    by_cases hlt : t < acc.2
    · have hstep : scanStep acc (k, t) = (k, t) := by
        simp [scanStep, hacc, hlt]
      rw [hstep]
      obtain ⟨h1, h2⟩ := ih htl (k, t) hk
      refine ⟨h1, ?_⟩
      rw [h2]
      cases hm : minD tl with
      | none =>
        simp only [minD, hm]
        exact (min_eq_right (le_of_lt hlt)).symm
      | some m =>
        simp only [minD, hm]
        exact (min_eq_right (le_trans (min_le_left t m) (le_of_lt hlt))).symm
    · have hle : acc.2 ≤ t := le_of_not_lt hlt
      have hstep : scanStep acc (k, t) = acc := by
        simp [scanStep, hacc, hlt]
      rw [hstep]
      obtain ⟨h1, h2⟩ := ih htl acc hacc
      refine ⟨h1, ?_⟩
      rw [h2]
      cases hm : minD tl with
      | none =>
        simp only [minD, hm]
        exact (min_eq_left hle).symm
      | some m =>
        simp only [minD, hm]
        calc min acc.2 m = min (min acc.2 t) m := by rw [min_eq_left hle]
          _ = min acc.2 (min t m) := min_assoc _ _ _

theorem scanEarliest_min (l : List (String × Int)) (hl : ∀ kt ∈ l, kt.1 ≠ "")
    (hne : l ≠ []) : some (scanEarliest l).2 = minD l := by
  cases l with
  | nil => exact absurd rfl hne
  | cons hd tl =>
    obtain ⟨k, t⟩ := hd
    have hk : k ≠ "" := hl (k, t) (List.mem_cons_self _ _)
    have htl : ∀ kt ∈ tl, kt.1 ≠ "" := fun kt hkt => hl kt (List.mem_cons_of_mem _ hkt)
    unfold scanEarliest
    rw [List.foldl_cons]
    have hstep : scanStep ("", 0) (k, t) = (k, t) := by simp [scanStep]
    rw [hstep]
    obtain ⟨_, h2⟩ := foldl_scanStep tl htl (k, t) hk
    cases hm : minD tl with
    | none => simp only [minD, hm] at h2 ⊢; rw [h2]
    | some m => simp only [minD, hm] at h2 ⊢; rw [h2]

theorem refreshTimer_timer_empty (s : Store) (h : s.deferredUpdates = []) :
    (refreshTimer s).deferredUpdatesTimer = none := by
  simp [refreshTimer, h]

theorem refreshTimer_timer_min (s : Store) (hstop : s.stopped = false)
    (hne : s.deferredUpdates ≠ []) (hl : ∀ kt ∈ s.deferredUpdates, kt.1 ≠ "") :
    (refreshTimer s).deferredUpdatesTimer.map Prod.snd = minD s.deferredUpdates := by
  have hemp : s.deferredUpdates.isEmpty = false := by
    cases h : s.deferredUpdates with
    | nil => exact absurd h hne
    | cons hd tl => rfl
  simp only [refreshTimer, hemp, hstop, Bool.or_self, Bool.false_eq_true, if_false,
    Option.map_some']
  exact scanEarliest_min s.deferredUpdates hl hne

theorem refreshTimer_set_min (s : Store) (l : List (String × Int))
    (hstop : s.stopped = false) (hl : ∀ kt ∈ l, kt.1 ≠ "") :
    (refreshTimer { s with deferredUpdates := l }).deferredUpdatesTimer.map Prod.snd
      = minD l := by
  cases l with
  | nil =>
    rw [refreshTimer_timer_empty _ rfl]
    rfl
  | cons hd tl =>
    have h := refreshTimer_timer_min { s with deferredUpdates := hd :: tl }
      hstop (by simp) hl
    exact h

theorem addBacklog_timer_min (s : Store) (k : String) (t : Int)
    (hstop : s.stopped = false) (hl : ∀ kt ∈ s.deferredUpdates, kt.1 ≠ "")
    (hk : k ≠ "")
    (hinv : s.deferredUpdatesTimer.map Prod.snd = minD s.deferredUpdates) :
    (addBacklog s k t).deferredUpdatesTimer.map Prod.snd =
      minD (addBacklog s k t).deferredUpdates := by
  have hl' : ∀ kt ∈ mapInsert s.deferredUpdates k t, kt.1 ≠ "" := by
    intro kt hkt
    rcases mem_mapInsert _ _ _ _ hkt with h | h
    · rw [h]; exact hk
    · exact hl kt h
  have hmain :
      (refreshTimer { s with deferredUpdates := mapInsert s.deferredUpdates k t
        }).deferredUpdatesTimer.map Prod.snd =
        minD (refreshTimer { s with deferredUpdates := mapInsert s.deferredUpdates k t
          }).deferredUpdates := by
    rw [refreshTimer_deferredUpdates]
    exact refreshTimer_set_min s _ hstop hl'
  unfold addBacklog
  rw [if_neg (by rw [hstop]; exact Bool.false_ne_true)]
  split
  · exact hmain
  · split
    · exact hmain
    · exact hinv

theorem removeBacklog_timer_min (s : Store) (k : String)
    (hstop : s.stopped = false) (hl : ∀ kt ∈ s.deferredUpdates, kt.1 ≠ "") :
    (removeBacklog s k).deferredUpdatesTimer.map Prod.snd =
      minD (removeBacklog s k).deferredUpdates := by
  have hl' : ∀ kt ∈ mapErase s.deferredUpdates k, kt.1 ≠ "" :=
    fun kt hkt => hl kt (mem_mapErase _ _ _ hkt)
  unfold removeBacklog
  rw [if_neg (by rw [hstop]; exact Bool.false_ne_true)]
  rw [refreshTimer_deferredUpdates]
  exact refreshTimer_set_min s _ hstop hl'

/-! Facts about enqueue, the job body and the shutdown drain. -/

theorem enqueue_events_no_notify (s : Store) (a : String) :
    (enqueue s a).2.any Event.isNotify = false := by
  unfold enqueue
  split
  · rfl
  · split
    · rfl
    · rfl

theorem enqueue_cache (s : Store) (a : String) : (enqueue s a).1.cache = s.cache := by
  unfold enqueue
  split
  · rfl
  · split
    · rfl
    · rfl

theorem enqueue_deferredUpdates (s : Store) (a : String) :
    (enqueue s a).1.deferredUpdates = s.deferredUpdates := by
  unfold enqueue
  split
  · rfl
  · split
    · rfl
    · rfl

theorem enqueue_poolStopped_no_submit (s : Store) (a : String)
    (h : s.poolStopped = true) : (enqueue s a).2 = [] := by
  unfold enqueue
  rw [h]
  split
  · rfl
  · rfl

theorem enqueue_inflight_id (s : Store) (a : String)
    (h : listMem s.inflight a = true) : enqueue s a = (s, []) := by
  unfold enqueue
  rw [if_pos h]

theorem enqueue_acquire_submit (s : Store) (a : String)
    (hpool : s.poolStopped = false) (hinf : listMem s.inflight a = false) :
    enqueue s a =
      ({ s with inflight := a :: s.inflight, pendingJobs := s.pendingJobs ++ [a] },
       [Event.submit a]) := by
  unfold enqueue
  rw [if_neg (by rw [hinf]; exact Bool.false_ne_true),
      if_neg (by rw [hpool]; exact Bool.false_ne_true)]

theorem runJob_events (u : String → Option tagMap) (s : Store) (a : String) :
    (runJob u s a).2 = [Event.cacheAdd a (u a), Event.backlogRemove a,
      Event.notify a (u a), Event.inflightDelete a] := rfl

theorem runJob_cache (u : String → Option tagMap) (s : Store) (a : String) :
    (runJob u s a).1.cache = mapInsert s.cache a (u a) := by
  simp only [runJob, removeBacklog_cache]

theorem runJob_cache_self (u : String → Option tagMap) (s : Store) (a : String) :
    mapLookup (runJob u s a).1.cache a = some (u a) := by
  rw [runJob_cache, mapLookup_mapInsert_self]

theorem runJob_deferred_self (u : String → Option tagMap) (s : Store) (a : String) :
    mapLookup (runJob u s a).1.deferredUpdates a = none := by
  simp only [runJob]
  exact removeBacklog_lookup_self _ a

theorem runJob_inflight_self (u : String → Option tagMap) (s : Store) (a : String) :
    listMem (runJob u s a).1.inflight a = false := by
  simp only [runJob]
  exact listMem_listErase_self _ a

theorem runJob_stopped (u : String → Option tagMap) (s : Store) (a : String) :
    (runJob u s a).1.stopped = s.stopped := by
  simp only [runJob, removeBacklog_stopped]

theorem runJob_poolStopped (u : String → Option tagMap) (s : Store) (a : String) :
    (runJob u s a).1.poolStopped = s.poolStopped := by
  simp only [runJob, removeBacklog_poolStopped]

theorem runJob_pendingJobs (u : String → Option tagMap) (s : Store) (a : String) :
    (runJob u s a).1.pendingJobs = s.pendingJobs := by
  simp only [runJob, removeBacklog_pendingJobs]

theorem runJob_deferred_nil (u : String → Option tagMap) (s : Store) (a : String)
    (h : s.deferredUpdates = []) : (runJob u s a).1.deferredUpdates = [] := by
  simp only [runJob, removeBacklog_deferredUpdates]
  have : mapErase ({ s with cache := mapInsert s.cache a (u a)
    } : Store).deferredUpdates a = mapErase s.deferredUpdates a := rfl
  rw [this, h]
  rfl

theorem drainJobs_stopped (u : String → Option tagMap) (jobs : List String) :
    ∀ s : Store, (drainJobs u s jobs).1.stopped = s.stopped := by
  induction jobs with
  | nil => intro s; rfl
  | cons a rest ih =>
    intro s
    simp only [drainJobs]
    rw [ih, runJob_stopped]

theorem drainJobs_poolStopped (u : String → Option tagMap) (jobs : List String) :
    ∀ s : Store, (drainJobs u s jobs).1.poolStopped = s.poolStopped := by
  induction jobs with
  | nil => intro s; rfl
  | cons a rest ih =>
    intro s
    simp only [drainJobs]
    rw [ih, runJob_poolStopped]

theorem drainJobs_pendingJobs (u : String → Option tagMap) (jobs : List String) :
    ∀ s : Store, (drainJobs u s jobs).1.pendingJobs = s.pendingJobs := by
  induction jobs with
  | nil => intro s; rfl
  | cons a rest ih =>
    intro s
    simp only [drainJobs]
    rw [ih, runJob_pendingJobs]

theorem drainJobs_deferred_nil (u : String → Option tagMap) (jobs : List String) :
    ∀ s : Store, s.deferredUpdates = [] →
      (drainJobs u s jobs).1.deferredUpdates = [] := by
  induction jobs with
  | nil => intro s h; exact h
  | cons a rest ih =>
    intro s h
    simp only [drainJobs]
    exact ih _ (runJob_deferred_nil u s a h)

theorem drainJobs_notify_mem (u : String → Option tagMap) (jobs : List String) :
    ∀ s : Store, ∀ a ∈ jobs, Event.notify a (u a) ∈ (drainJobs u s jobs).2 := by
  induction jobs with
  | nil =>
    intro s a ha
    exact absurd ha (List.not_mem_nil a)
  | cons b rest ih =>
    intro s a ha
    simp only [drainJobs, List.mem_append]
    rcases List.mem_cons.mp ha with h | h
    · left
      rw [h, runJob_events]
      simp
    · right
      exact ih _ a h

theorem destroy_stopped (u : String → Option tagMap) (s : Store) :
    (destroy u s).1.stopped = true := by
  simp only [destroy]
  rw [drainJobs_stopped]

theorem destroy_poolStopped (u : String → Option tagMap) (s : Store) :
    (destroy u s).1.poolStopped = true := by
  simp only [destroy]
  rw [drainJobs_poolStopped]

theorem destroy_deferredUpdates (u : String → Option tagMap) (s : Store) :
    (destroy u s).1.deferredUpdates = [] := by
  simp only [destroy]
  rw [drainJobs_deferred_nil]
  rfl

theorem destroy_pendingJobs (u : String → Option tagMap) (s : Store) :
    (destroy u s).1.pendingJobs = [] := by
  simp only [destroy]
  rw [drainJobs_pendingJobs]

theorem destroy_notify_mem (u : String → Option tagMap) (s : Store) (a : String)
    (h : a ∈ s.pendingJobs) : Event.notify a (u a) ∈ (destroy u s).2 := by
  simp only [destroy]
  exact drainJobs_notify_mem u s.pendingJobs _ a h

/-! Branch lemmas for lookup. -/

theorem lookup_miss (now : Int) (s : Store) (agent index : String)
    (hc : mapLookup s.cache agent = none) :
    lookup now s agent index = some (enqueue s agent) := by
  unfold lookup
  rw [hc]

theorem lookup_nil_entry (now : Int) (s : Store) (agent index : String)
    (hc : mapLookup s.cache agent = some none) :
    lookup now s agent index = none := by
  unfold lookup
  rw [hc]

theorem lookup_hit_found (now : Int) (s : Store) (agent index : String)
    (entry : tagMap) (v : List (String × String))
    (hc : mapLookup s.cache agent = some (some entry))
    (hrow : mapLookup entry.rows index = some v) :
    lookup now s agent index = some (s, [Event.notify agent (some entry)]) := by
  simp only [lookup, hc, hrow]

theorem lookup_hit_missing_disabled (now : Int) (s : Store) (agent index : String)
    (entry : tagMap)
    (hc : mapLookup s.cache agent = some (some entry))
    (hrow : mapLookup entry.rows index = none)
    (hI : ¬0 < s.minUpdateInterval) :
    lookup now s agent index = some (s, [Event.notify agent (some entry)]) := by
  simp only [lookup, hc, hrow]
  rw [if_neg hI]

theorem lookup_hit_missing_elapsed (now : Int) (s : Store) (agent index : String)
    (entry : tagMap)
    (hc : mapLookup s.cache agent = some (some entry))
    (hrow : mapLookup entry.rows index = none)
    (hI : 0 < s.minUpdateInterval)
    (helap : s.minUpdateInterval < now - entry.created) :
    lookup now s agent index = some (enqueue s agent) := by
  simp only [lookup, hc, hrow]
  rw [if_pos hI, if_pos helap]

theorem lookup_hit_missing_throttle (now : Int) (s : Store) (agent index : String)
    (entry : tagMap)
    (hc : mapLookup s.cache agent = some (some entry))
    (hrow : mapLookup entry.rows index = none)
    (hI : 0 < s.minUpdateInterval)
    (helap : ¬s.minUpdateInterval < now - entry.created) :
    lookup now s agent index =
      some (addBacklog s agent (entry.created + s.minUpdateInterval),
            [Event.notify agent (some entry)]) := by
  simp only [lookup, hc, hrow]
  rw [if_pos hI, if_neg helap]

theorem addBacklog_stopped_noop (s : Store) (k : String) (t : Int)
    (h : s.stopped = true) : addBacklog s k t = s := by
  unfold addBacklog
  rw [if_pos h]

theorem addBacklog_deferred_new (s : Store) (k : String) (t : Int)
    (hstop : s.stopped = false) (hb : mapLookup s.deferredUpdates k = none) :
    (addBacklog s k t).deferredUpdates = mapInsert s.deferredUpdates k t := by
  unfold addBacklog
  rw [if_neg (by rw [hstop]; exact Bool.false_ne_true), hb]
  exact refreshTimer_deferredUpdates _

theorem addBacklog_noop_existing (s : Store) (k : String) (t t' : Int)
    (hb : mapLookup s.deferredUpdates k = some t') (hle : ¬t < t') :
    addBacklog s k t = s := by
  unfold addBacklog
  split
  · rfl
  · simp only [hb]
    rw [if_neg hle]

/-! Lemmas about repeated lookups for a key whose resolution is in flight. -/

theorem lookup_stuck (now : Int) (s : Store) (agent index : String)
    (hmiss : mapLookup s.cache agent = none)
    (hinf : listMem s.inflight agent = true) :
    lookup now s agent index = some (s, []) := by
  rw [lookup_miss now s agent index hmiss, enqueue_inflight_id s agent hinf]

theorem iterateLookups_stuck (now : Int) (s : Store) (agent index : String)
    (hmiss : mapLookup s.cache agent = none)
    (hinf : listMem s.inflight agent = true) :
    ∀ n : Nat, iterateLookups now s agent index n = (s, []) := by
  intro n
  induction n with
  | zero => rfl
  | succ m ih =>
    simp only [iterateLookups, lookup_stuck now s agent index hmiss hinf, ih]
    rfl

/-- On a stopped store with a stopped pool and an empty backlog, every
lookup leaves the backlog empty and never submits a resolution job. -/
theorem lookup_stopped_safe (now : Int) (s : Store) (k i : String)
    (hpool : s.poolStopped = true) (hstop : s.stopped = true)
    (hdef : s.deferredUpdates = []) :
    ((lookup now s k i).all
      (fun r => r.1.deferredUpdates.isEmpty && !(r.2.any Event.isSubmit))) = true := by
  have henq : ((enqueue s k).1.deferredUpdates.isEmpty
      && !((enqueue s k).2.any Event.isSubmit)) = true := by
    rw [enqueue_deferredUpdates, hdef, enqueue_poolStopped_no_submit s k hpool]
    rfl
  cases hc : mapLookup s.cache k with
  | none =>
    rw [lookup_miss now s k i hc]
    exact henq
  | some e =>
    cases e with
    | none =>
      rw [lookup_nil_entry now s k i hc]
      rfl
    | some entry =>
      cases hrow : mapLookup entry.rows i with
      | some v =>
        rw [lookup_hit_found now s k i entry v hc hrow]
        simp only [Option.all, hdef]
        rfl
      | none =>
        by_cases hI : 0 < s.minUpdateInterval
        · by_cases helap : s.minUpdateInterval < now - entry.created
          · rw [lookup_hit_missing_elapsed now s k i entry hc hrow hI helap]
            exact henq
          · rw [lookup_hit_missing_throttle now s k i entry hc hrow hI helap,
                addBacklog_stopped_noop s k _ hstop]
            simp only [Option.all, hdef]
            rfl
        · rw [lookup_hit_missing_disabled now s k i entry hc hrow hI]
          simp only [Option.all, hdef]
          rfl

/-! Claims. -/

/-- Claim C1 is refuted at this concrete input: the cache holds an entry
for sw1 whose rows lack eth1 (a partial hit), the minimum-update-interval
policy is enabled (10) and elapsed (100 time units since creation), yet
the lookup call emits no notifier invocation at all: it only submits a
resolution job and returns. -/
theorem C1_counterexample :
    mapLookup c1s.cache "sw1" = some (some exEntry) ∧
    mapLookup exEntry.rows "eth1" = none ∧
    (0 < c1s.minUpdateInterval ∧ c1s.minUpdateInterval < 100 - exEntry.created) ∧
    (lookup 100 c1s "sw1" "eth1").map (fun r => r.2.any Event.isNotify) = some false ∧
    (lookup 100 c1s "sw1" "eth1").map (fun r => r.2) = some [Event.submit "sw1"] := by
  decide

/-- Claim C1 (amended): on a partial hit the notifier is invoked
synchronously within the lookup call exactly when the policy is disabled
or enabled-and-not-elapsed; in the enabled-and-elapsed case the lookup
instead behaves as enqueue (submitting a resolution job) and returns
without any notifier invocation. -/
theorem C1_theorem (now : Int) (s : Store) (agent index : String) (entry : tagMap)
    (hc : mapLookup s.cache agent = some (some entry))
    (hrow : mapLookup entry.rows index = none) :
    (lookup now s agent index).map Prod.snd =
      some (if 0 < s.minUpdateInterval ∧ s.minUpdateInterval < now - entry.created
            then (enqueue s agent).2
            else [Event.notify agent (some entry)]) ∧
    (enqueue s agent).2.any Event.isNotify = false := by
  refine ⟨?_, enqueue_events_no_notify s agent⟩
  by_cases hI : 0 < s.minUpdateInterval
  · by_cases helap : s.minUpdateInterval < now - entry.created
    · rw [lookup_hit_missing_elapsed now s agent index entry hc hrow hI helap,
          if_pos ⟨hI, helap⟩]
      rfl
    · rw [lookup_hit_missing_throttle now s agent index entry hc hrow hI helap,
          if_neg (fun h => helap h.2)]
      rfl
  · rw [lookup_hit_missing_disabled now s agent index entry hc hrow hI,
        if_neg (fun h => hI h.1)]
    rfl

/-- Claim C1 witness: the amended theorem evaluated on c1s at instant 100
(the enabled-and-elapsed case). -/
theorem C1_witness :
    (lookup 100 c1s "sw1" "eth1").map Prod.snd =
      some (if 0 < c1s.minUpdateInterval ∧ c1s.minUpdateInterval < 100 - exEntry.created
            then (enqueue c1s "sw1").2
            else [Event.notify "sw1" (some exEntry)]) ∧
    (enqueue c1s "sw1").2.any Event.isNotify = false :=
  C1_theorem 100 c1s "sw1" "eth1" exEntry (by decide) (by decide)

/-- Claim C2 is refuted at this concrete reachable state: after destroy,
the pool is stopped; enqueue for the uncached key sw1 acquires the
in-flight mark (stores it into the in-flight set), submits no job, and
returns without removing the mark, leaving sw1 marked in-flight with no
job that will ever release it. -/
theorem C2_counterexample :
    listMem c2s.inflight "sw1" = false ∧
    (enqueue c2s "sw1").2 = [] ∧
    (enqueue c2s "sw1").1.pendingJobs = [] ∧
    listMem (enqueue c2s "sw1").1.inflight "sw1" = true := by
  decide

/-- Claim C2 (amended): whenever enqueue acquires the in-flight mark for a
key while the pool is not stopped, a resolution job is submitted, and
running that job deletes the key from the in-flight set; only when the
pool has already been stopped (during or after destroy) may enqueue leave
the mark set without submitting a job. -/
theorem C2_theorem (s : Store) (u : String → Option tagMap) (agent : String)
    (hpool : s.poolStopped = false) (hinf : listMem s.inflight agent = false) :
    (enqueue s agent).2 = [Event.submit agent] ∧
    listMem (enqueue s agent).1.inflight agent = true ∧
    (enqueue s agent).1.pendingJobs = s.pendingJobs ++ [agent] ∧
    listMem (runJob u (enqueue s agent).1 agent).1.inflight agent = false := by
  rw [enqueue_acquire_submit s agent hpool hinf]
  exact ⟨rfl, listMem_cons_self _ _, rfl, runJob_inflight_self u _ agent⟩

/-- Claim C2 witness: the amended theorem evaluated on a fresh store. -/
theorem C2_witness :
    (enqueue (newStore 2 60 4 0) "sw1").2 = [Event.submit "sw1"] ∧
    listMem (enqueue (newStore 2 60 4 0) "sw1").1.inflight "sw1" = true ∧
    (enqueue (newStore 2 60 4 0) "sw1").1.pendingJobs =
      (newStore 2 60 4 0).pendingJobs ++ ["sw1"] ∧
    listMem (runJob (fun _ => none) (enqueue (newStore 2 60 4 0) "sw1").1
      "sw1").1.inflight "sw1" = false :=
  C2_theorem (newStore 2 60 4 0) (fun _ => none) "sw1" rfl rfl

/-- Claim C3: for a key with no cached entry, no resolution in flight and
a running pool, N+1 successive lookup calls (each enqueue step being the
atomic LoadOrStore) submit exactly one resolution job for the key, hence
exactly one resolver invocation, before any resolution completes. -/
theorem C3_theorem (now : Int) (s : Store) (agent index : String) (n : Nat)
    (hmiss : mapLookup s.cache agent = none)
    (hinf : listMem s.inflight agent = false)
    (hpool : s.poolStopped = false) :
    countSubmit (iterateLookups now s agent index (n + 1)).2 agent = 1 := by
  have key := enqueue_acquire_submit s agent hpool hinf
  have h1 : lookup now s agent index = some (enqueue s agent) :=
    lookup_miss now s agent index hmiss
  have hcache1 : mapLookup (enqueue s agent).1.cache agent = none := by
    rw [enqueue_cache]; exact hmiss
  have hinf1 : listMem (enqueue s agent).1.inflight agent = true := by
    rw [key]; exact listMem_cons_self _ _
  have hev : (enqueue s agent).2 = [Event.submit agent] := by rw [key]
  simp only [iterateLookups, h1,
    iterateLookups_stuck now _ agent index hcache1 hinf1 n, hev]
  simp [countSubmit]

/-- Claim C3 witness: five successive lookups for the uncached key sw2 on
a fresh store submit exactly one job. -/
theorem C3_witness :
    countSubmit (iterateLookups 0 (newStore 100 3600 4 0) "sw2" "eth0"
      (4 + 1)).2 "sw2" = 1 :=
  C3_theorem 0 (newStore 100 3600 4 0) "sw2" "eth0" 4 rfl rfl rfl

/-- Claim C4: the completion path of a resolution job performs, in this
order, the cache install, the backlog removal, the notifier invocation
and the in-flight release, as recorded in its event trace; afterwards the
cache holds the fresh entry, the backlog has no entry for the key and the
key is no longer in flight. -/
theorem C4_theorem (u : String → Option tagMap) (s : Store) (agent : String) :
    (runJob u s agent).2 =
      [Event.cacheAdd agent (u agent), Event.backlogRemove agent,
       Event.notify agent (u agent), Event.inflightDelete agent] ∧
    mapLookup (runJob u s agent).1.cache agent = some (u agent) ∧
    mapLookup (runJob u s agent).1.deferredUpdates agent = none ∧
    listMem (runJob u s agent).1.inflight agent = false :=
  ⟨runJob_events u s agent, runJob_cache_self u s agent,
   runJob_deferred_self u s agent, runJob_inflight_self u s agent⟩

/-- Claim C5 is refuted at this concrete state: after addBacklog of key
"" at deadline 10 followed by addBacklog of key a at deadline 20, the
timer is armed for deadline 20 although deadline 10 is still present in
the backlog; the scan of refreshTimer uses the empty string as its
sentinel for no candidate yet and so skips past an empty-string key. -/
theorem C5_counterexample :
    c5s.stopped = false ∧
    c5s.deferredUpdates = [("", 10), ("a", 20)] ∧
    c5s.deferredUpdatesTimer = some ("a", 20) ∧
    minD c5s.deferredUpdates = some 10 ∧ (10 : Int) < 20 := by
  decide

/-- Claim C5 (amended): provided no backlog key is the empty string and
the timer currently matches the minimum backlog deadline, both addBacklog
and removeBacklog on a running store re-establish that the timer is armed
exactly at the minimum deadline of the resulting backlog, and is disarmed
when the backlog becomes empty. -/
theorem C5_theorem (s : Store) (k : String) (t : Int)
    (hstop : s.stopped = false)
    (hl : ∀ kt ∈ s.deferredUpdates, kt.1 ≠ "")
    (hk : k ≠ "")
    (hinv : s.deferredUpdatesTimer.map Prod.snd = minD s.deferredUpdates) :
    (addBacklog s k t).deferredUpdatesTimer.map Prod.snd =
      minD (addBacklog s k t).deferredUpdates ∧
    (removeBacklog s k).deferredUpdatesTimer.map Prod.snd =
      minD (removeBacklog s k).deferredUpdates :=
  ⟨addBacklog_timer_min s k t hstop hl hk hinv,
   removeBacklog_timer_min s k hstop hl⟩

/-- Claim C5 witness: the amended theorem evaluated on a running store
holding one backlog entry for key b at deadline 40, inserting key a at
the earlier deadline 20. -/
theorem C5_witness :
    (addBacklog c5w "a" 20).deferredUpdatesTimer.map Prod.snd =
      minD (addBacklog c5w "a" 20).deferredUpdates ∧
    (removeBacklog c5w "a").deferredUpdatesTimer.map Prod.snd =
      minD (removeBacklog c5w "a").deferredUpdates :=
  C5_theorem c5w "a" 20 (by decide) (by decide) (by decide) (by decide)

/-- Claim C6: with minimum update interval I and a cached entry created
at T, a partial-hit lookup at T plus delta with 0 less than delta less
than I installs a backlog deadline of exactly T plus I, and a second
partial-hit lookup at a later instant still inside the interval leaves
the state (and hence the deadline) unchanged, because addBacklog at an
equal-or-later time for an existing key is a no-op. -/
theorem C6_theorem (s : Store) (agent index : String) (entry : tagMap)
    (T I δ δ' : Int)
    (hc : mapLookup s.cache agent = some (some entry))
    (hcr : entry.created = T)
    (hI : s.minUpdateInterval = I)
    (hrow : mapLookup entry.rows index = none)
    (hstop : s.stopped = false)
    (hb : mapLookup s.deferredUpdates agent = none)
    (hδ0 : 0 < δ) (hδI : δ < I) (_hδδ' : δ < δ') (hδ'I : δ' < I) :
    ∃ s1, lookup (T + δ) s agent index =
        some (s1, [Event.notify agent (some entry)]) ∧
      mapLookup s1.deferredUpdates agent = some (T + I) ∧
      ∃ s2, lookup (T + δ') s1 agent index =
          some (s2, [Event.notify agent (some entry)]) ∧
        s2 = s1 ∧ mapLookup s2.deferredUpdates agent = some (T + I) := by
  have hI0 : 0 < s.minUpdateInterval := by rw [hI]; omega
  have helap1 : ¬s.minUpdateInterval < T + δ - entry.created := by
    rw [hI, hcr]; omega
  have h1 := lookup_hit_missing_throttle (T + δ) s agent index entry hc hrow hI0 helap1
  have harg : entry.created + s.minUpdateInterval = T + I := by rw [hcr, hI]
  rw [harg] at h1
  have hd1 : mapLookup (addBacklog s agent (T + I)).deferredUpdates agent =
      some (T + I) := by
    rw [addBacklog_deferred_new s agent (T + I) hstop hb, mapLookup_mapInsert_self]
  have hc1 : mapLookup (addBacklog s agent (T + I)).cache agent =
      some (some entry) := by
    rw [addBacklog_cache]; exact hc
  have hI1 : (addBacklog s agent (T + I)).minUpdateInterval = I := by
    rw [addBacklog_minUpdateInterval, hI]
  have hI0' : 0 < (addBacklog s agent (T + I)).minUpdateInterval := by
    rw [hI1]; omega
  have helap2 :
      ¬(addBacklog s agent (T + I)).minUpdateInterval < T + δ' - entry.created := by
    rw [hI1, hcr]; omega
  have h2 := lookup_hit_missing_throttle (T + δ') (addBacklog s agent (T + I))
    agent index entry hc1 hrow hI0' helap2
  have harg2 : entry.created + (addBacklog s agent (T + I)).minUpdateInterval =
      T + I := by
    rw [hI1, hcr]
  rw [harg2, addBacklog_noop_existing _ agent (T + I) (T + I) hd1 (lt_irrefl _)] at h2
  exact ⟨addBacklog s agent (T + I), h1, hd1,
         addBacklog s agent (T + I), h2, rfl, hd1⟩

/-- Claim C6 witness: the theorem evaluated on c6s with T equal 0, I
equal 30, and partial-hit lookups at instants 5 and 10. -/
theorem C6_witness :
    ∃ s1, lookup (0 + 5) c6s "sw1" "eth1" =
        some (s1, [Event.notify "sw1" (some exEntry)]) ∧
      mapLookup s1.deferredUpdates "sw1" = some (0 + 30) ∧
      ∃ s2, lookup (0 + 10) s1 "sw1" "eth1" =
          some (s2, [Event.notify "sw1" (some exEntry)]) ∧
        s2 = s1 ∧ mapLookup s2.deferredUpdates "sw1" = some (0 + 30) :=
  C6_theorem c6s "sw1" "eth1" exEntry 0 30 5 10 (by decide) (by decide)
    (by decide) (by decide) (by decide) (by decide) (by decide) (by decide)
    (by decide) (by decide)

/-- Claim C7 is refuted at this concrete input: with minimum update
interval 0 and a cached entry for sw1 missing eth2, the lookup does not
trigger any resolver call: it submits no job, leaves the store (including
the pool queue and the backlog) completely unchanged, and only notifies
with the cached incomplete entry. -/
theorem C7_counterexample :
    c7s.minUpdateInterval = 0 ∧
    mapLookup c7s.cache "sw1" = some (some exEntry) ∧
    mapLookup exEntry.rows "eth2" = none ∧
    lookup 50 c7s "sw1" "eth2" = some (c7s, [Event.notify "sw1" (some exEntry)]) ∧
    (lookup 50 c7s "sw1" "eth2").map (fun r => r.2.any Event.isSubmit) = some false ∧
    (lookup 50 c7s "sw1" "eth2").map (fun r => r.1.pendingJobs) = some [] := by
  decide

/-- Claim C7 (amended): with the minimum-update-interval policy disabled
(interval at most 0), a partial-hit lookup performs no store-driven
action at all: the store is returned unchanged (no job submitted, no
backlog entry ever created) and the only effect is the synchronous
notifier invocation with the cached incomplete entry. -/
theorem C7_theorem (now : Int) (s : Store) (agent index : String) (entry : tagMap)
    (hc : mapLookup s.cache agent = some (some entry))
    (hrow : mapLookup entry.rows index = none)
    (hI : s.minUpdateInterval ≤ 0) :
    lookup now s agent index = some (s, [Event.notify agent (some entry)]) :=
  lookup_hit_missing_disabled now s agent index entry hc hrow (not_lt.mpr hI)

/-- Claim C7 witness: the amended theorem evaluated on c7s. -/
theorem C7_witness :
    lookup 50 c7s "sw1" "eth2" = some (c7s, [Event.notify "sw1" (some exEntry)]) :=
  C7_theorem 50 c7s "sw1" "eth2" exEntry (by decide) (by decide) (by decide)

/-- Claim C8: once destroy completes the store is stopped with a stopped
pool, the backlog map is empty and no jobs remain queued; afterwards
addBacklog is a no-op, enqueue submits nothing, and any lookup leaves the
backlog empty and submits no job; and every job that was submitted before
destroy was called has been run to completion (its notifier invocation
appears in the destroy trace) before destroy returns. -/
theorem C8_theorem (u : String → Option tagMap) (s : Store) (k : String)
    (t : Int) (now : Int) (i : String) :
    (destroy u s).1.stopped = true ∧
    (destroy u s).1.poolStopped = true ∧
    (destroy u s).1.deferredUpdates = [] ∧
    (destroy u s).1.pendingJobs = [] ∧
    addBacklog (destroy u s).1 k t = (destroy u s).1 ∧
    (enqueue (destroy u s).1 k).2 = [] ∧
    ((lookup now (destroy u s).1 k i).all
      (fun r => r.1.deferredUpdates.isEmpty && !(r.2.any Event.isSubmit))) = true ∧
    (s.pendingJobs.all
      (fun a => decide (Event.notify a (u a) ∈ (destroy u s).2))) = true := by
  refine ⟨destroy_stopped u s, destroy_poolStopped u s, destroy_deferredUpdates u s,
    destroy_pendingJobs u s, addBacklog_stopped_noop _ k t (destroy_stopped u s),
    enqueue_poolStopped_no_submit _ k (destroy_poolStopped u s),
    lookup_stopped_safe now _ k i (destroy_poolStopped u s) (destroy_stopped u s)
      (destroy_deferredUpdates u s), ?_⟩
  rw [List.all_eq_true]
  intro a ha
  exact decide_eq_true (destroy_notify_mem u s a ha)

/-- Claim C9 is refuted at this concrete input: the configuration with
cache size, TTL, worker count and minimum update interval all negative is
invalid under the validity predicate from the spec, yet newStore accepts
it, returning a fully functional running store on which lookup proceeds
normally (it submits a resolution job); no rejection happens at
construction time. -/
theorem C9_counterexample :
    specValidConfig (-1) (-1) (-1) (-1) = false ∧
    newStore (-1) (-1) (-1) (-1) =
      { cacheSize := -1
        cacheTTL := -1
        workers := -1
        cache := []
        poolStopped := false
        pendingJobs := []
        minUpdateInterval := -1
        inflight := []
        deferredUpdates := []
        deferredUpdatesTimer := none
        stopped := false } ∧
    (lookup 0 (newStore (-1) (-1) (-1) (-1)) "sw1" "eth0").map (fun r => r.2) =
      some [Event.submit "sw1"] := by
  decide

/-- Claim C9 (amended): newStore performs no validation and cannot fail:
for every combination of capacity and interval parameters, valid or
invalid, it returns a live store with empty state, and lookup on such a
store proceeds exactly as on any other store (no rejection at call time
either); any rejection of invalid configuration happens outside newStore,
in the plugin initialization that precedes construction. -/
theorem C9_theorem (size ttl workers minUpdateInterval : Int)
    (now : Int) (a i : String) :
    newStore size ttl workers minUpdateInterval =
      { cacheSize := size
        cacheTTL := ttl
        workers := workers
        cache := []
        poolStopped := false
        pendingJobs := []
        minUpdateInterval := minUpdateInterval
        inflight := []
        deferredUpdates := []
        deferredUpdatesTimer := none
        stopped := false } ∧
    (newStore size ttl workers minUpdateInterval).stopped = false ∧
    lookup now (newStore size ttl workers minUpdateInterval) a i =
      some (enqueue (newStore size ttl workers minUpdateInterval) a) :=
  ⟨rfl, rfl, lookup_miss now _ a i rfl⟩

/-- Claim C10: the completion path installs whatever the collaborator
update function returns into the cache unconditionally, replacing any
previously cached entry for the key, and the single notifier invocation
of the job delivers exactly that returned value, including an absent
(nil) result; the cache update is never skipped. -/
theorem C10_theorem (u : String → Option tagMap) (s : Store) (agent : String) :
    (runJob u s agent).1.cache = mapInsert s.cache agent (u agent) ∧
    mapLookup (runJob u s agent).1.cache agent = some (u agent) ∧
    (runJob u s agent).2.filter Event.isNotify = [Event.notify agent (u agent)] := by
  refine ⟨runJob_cache u s agent, runJob_cache_self u s agent, ?_⟩
  rw [runJob_events]
  rfl

end SnmpLookup
